import Mathlib

/-!
Verification development for the format-resolution and stream-acquisition
pipeline of the `itscaro/youtube` Go repository.

The Go sources are shallowly embedded:
* machine integers (`int` fields of `Format`) become `Int`;
* Go strings become `String` (Go compares and searches bytes; for valid
  UTF-8 data byte-level prefix/substring/lexicographic tests agree with the
  character-level ones used here);
* fallible functions return `Except`/`Option`;
* `sort.SliceStable` (a stable sort by a `less` comparator) is embedded as
  `List.insertionSort` with the relation "does not sort strictly after";
* file-system effects of the downloader are embedded as explicit passing of
  a finite map from paths to file contents, and the external collaborators
  (HTTP transport, decipherer, muxer) as function parameters.
-/

/-- Substring test: embedding of Go `strings.Contains s sub`. -/
def strContains (s sub : String) : Bool := decide (sub.data <:+: s.data)

/-- Prefix test: embedding of Go `strings.HasPrefix s pre`. -/
def strHasPrefix (s pre : String) : Bool := pre.data.isPrefixOf s.data

/-- Decimal digits of a nonempty all-digit run, with accumulator; `none` as
soon as a non-digit character appears. -/
def decDigitsAux : List Char → Nat → Option Nat
  | [], acc => some acc
  | c :: cs, acc => if c.isDigit then decDigitsAux cs (acc * 10 + (c.toNat - 48)) else none

/-- Value of a nonempty string of decimal digits; `none` on the empty list or
on any non-digit character. -/
def decDigits? : List Char → Option Nat
  | [] => none
  | c :: cs => decDigitsAux (c :: cs) 0

/-- Embedding of Go `strconv.Atoi` as used in `FilterQuality`, where the
returned error is discarded: an optional sign followed by decimal digits
yields the signed value clamped to the 64-bit range (`strconv` returns the
clamped value together with a range error); any syntax error yields 0. -/
def goAtoi (s : String) : Int :=
  match s.data with
  | '-' :: rest =>
    match decDigits? rest with
    | some n => if (n : Int) ≤ 2 ^ 63 then -(n : Int) else -(2 ^ 63)
    | none => 0
  | '+' :: rest =>
    match decDigits? rest with
    | some n => if (n : Int) ≤ 2 ^ 63 - 1 then (n : Int) else 2 ^ 63 - 1
    | none => 0
  | l =>
    match decDigits? l with
    | some n => if (n : Int) ≤ 2 ^ 63 - 1 then (n : Int) else 2 ^ 63 - 1
    | none => 0

/-- Stream descriptor of the repository (`Format`).  The struct declaration
itself lives in a file of the repository outside `src/`; the fields and their
types are those referenced by the sources under `src/` (sort comparator,
filters, finders, downloader, info table).  `AudioSampleRate` and
`ContentLength` are strings in the Go struct (they are compared and parsed as
strings by the sources). -/
structure Format where
  ItagNo : Int := 0
  MimeType : String := ""
  Quality : String := ""
  QualityLabel : String := ""
  Width : Int := 0
  Height : Int := 0
  FPS : Int := 0
  Bitrate : Int := 0
  AverageBitrate : Int := 0
  AudioChannels : Int := 0
  AudioSampleRate : String := ""
  AudioQuality : String := ""
  ContentLength : String := ""
  URL : String := ""
  Cipher : String := ""
deriving DecidableEq

/-- `FormatList` is an ordered sequence of `Format` (Go slice). -/
abbrev FormatList := List Format

/-- Thumbnail entry; only the field referenced by the embedded sources. -/
structure Thumbnail where
  URL : String := ""
deriving DecidableEq

abbrev Thumbnails := List Thumbnail

/-- The `Video` struct of `src/video.go`.  `Duration` is modelled in whole
seconds (the Go code stores `seconds * time.Second`). -/
structure Video where
  ID : String := ""
  Title : String := ""
  Description : String := ""
  Author : String := ""
  Duration : Int := 0
  Formats : FormatList := []
  AudioFormats : FormatList := []
  VideoFormats : FormatList := []
  VideoAudioFormats : FormatList := []
  Thumbnails : Thumbnails := []
  DASHManifestURL : String := ""
  HLSManifestURL : String := ""
deriving DecidableEq

/-- Playability substructure of the player response. -/
structure PlayabilityStatusData where
  Status : String := ""
  Reason : String := ""
  PlayableInEmbed : Bool := false
deriving DecidableEq

/-- Video-details substructure of the player response. -/
structure VideoDetailsData where
  Title : String := ""
  Author : String := ""
  ShortDescription : String := ""
  ThumbnailList : Thumbnails := []
deriving DecidableEq

/-- Microformat substructure; `LengthSeconds` is a decimal string. -/
structure MicroformatData where
  LengthSeconds : String := ""
deriving DecidableEq

/-- Streaming-data substructure: the two stream-descriptor arrays plus the
optional manifest URLs. -/
structure StreamingDataData where
  Formats : FormatList := []
  AdaptiveFormats : FormatList := []
  DashManifestURL : String := ""
  HlsManifestURL : String := ""
deriving DecidableEq

/-- The parsed player response (`playerResponseData`). -/
structure PlayerResponseData where
  PlayabilityStatus : PlayabilityStatusData := {}
  VideoDetails : VideoDetailsData := {}
  Microformat : MicroformatData := {}
  StreamingData : StreamingDataData := {}
deriving DecidableEq

/-- Errors produced by the metadata / stream-URL layer (`src/video.go`,
`src/unnamed/part_000`). -/
inductive YTError where
  | responseStatus (status reason : String)
  | notPlayableInEmbed
  | playabilityStatus (status reason : String)
  | noFormatsFound
  | cipherNotFound
  | decipher (msg : String)
deriving DecidableEq

/-- Errors produced by the downloader (`src/downloader/downloader.go`). -/
inductive DLError where
  | noVideoFormat
  | noVideoFormatForQuality (quality : String)
  | unhandledMimeType (mimeType : String)
  | noAudioFormatForQuality (quality : String)
  | skipFileExists (videoID destFile : String)
  | transport (msg : String)
deriving DecidableEq

/-- Codec rank used by the audio comparison of `SortFormat` (`src/video.go`
lines 183-190): the Go code fills a map defaulting to 0, so a MIME type
containing "mp4" gets rank 1, one containing "opus" rank 2, and an
unrecognized codec keeps rank 0. -/
def audioCodecRank (mimeType : String) : Nat :=
  if strContains mimeType "mp4" then 1
  else if strContains mimeType "opus" then 2
  else 0

/-- Codec rank used by the video comparison of `SortFormat` (`src/video.go`
lines 207-216): "av01" gets rank 1, "vp9" rank 2, "avc1" rank 3, and an
unrecognized codec keeps the map default 0. -/
def videoCodecRank (mimeType : String) : Nat :=
  if strContains mimeType "av01" then 1
  else if strContains mimeType "vp9" then 2
  else if strContains mimeType "avc1" then 3
  else 0

/-- The comparator `SortFormat` of `src/video.go` (lines 175-227).  The Go
function receives two indices plus the list but reads only the two indexed
elements, so it is embedded as a function of the two formats.  `true` means
`fi` sorts strictly before `fj`. -/
def SortFormat (fi fj : Format) : Bool :=
  if fi.Width = fj.Width then
    if fi.FPS = fj.FPS then
      if fi.FPS = 0 ∧ 0 < fi.AudioChannels ∧ 0 < fj.AudioChannels then
        -- audio comparison
        if audioCodecRank fi.MimeType = audioCodecRank fj.MimeType then
          if fi.AudioChannels = fj.AudioChannels then
            if fi.Bitrate = fj.Bitrate then
              decide (fj.AudioSampleRate < fi.AudioSampleRate)
            else decide (fj.Bitrate < fi.Bitrate)
          else decide (fj.AudioChannels < fi.AudioChannels)
        else decide (audioCodecRank fi.MimeType < audioCodecRank fj.MimeType)
      else
        -- video comparison
        if videoCodecRank fi.MimeType = videoCodecRank fj.MimeType then
          decide (fj.Bitrate < fi.Bitrate)
        else decide (videoCodecRank fi.MimeType < videoCodecRank fj.MimeType)
    else decide (fj.FPS < fi.FPS)
  else decide (fj.Width < fi.Width)

/-- `fb` does not sort strictly before `fa`: the non-strict relation under
which a stable sort by the comparator `SortFormat` leaves the list sorted. -/
def formatBefore (fa fb : Format) : Prop := SortFormat fb fa = false

instance : DecidableRel formatBefore := fun fa fb =>
  inferInstanceAs (Decidable (SortFormat fb fa = false))

/-- Embedding of `sort.SliceStable(v.X, less)`: a stable sort by the `less`
comparator, i.e. the insertion sort by "does not sort strictly after". -/
def sortFormatList (l : FormatList) : FormatList :=
  List.insertionSort formatBefore l

/-- `(*Video).SortFormats` of `src/video.go` (lines 158-171): stably sorts
all four format views with the same comparator. -/
def Video.SortFormats (v : Video) : Video :=
  { v with
    Formats := sortFormatList v.Formats
    VideoAudioFormats := sortFormatList v.VideoAudioFormats
    AudioFormats := sortFormatList v.AudioFormats
    VideoFormats := sortFormatList v.VideoFormats }

/-- `FormatList.FindByQuality` of `src/unnamed/part_001` (lines 12-19):
first format whose quality enum or quality label equals `quality`. -/
def FindByQuality (list : FormatList) (quality : String) : Option Format :=
  list.find? fun f => f.Quality == quality || f.QualityLabel == quality

/-- `FormatList.FindByItag` of `src/unnamed/part_001` (lines 21-28):
first format whose itag equals `itagNo`. -/
def FindByItag (list : FormatList) (itagNo : Int) : Option Format :=
  list.find? fun f => f.ItagNo == itagNo

/-- `FormatList.FilterCodec` of `src/unnamed/part_001` (lines 32-44): the
labelled-continue loop keeps a format exactly when its MIME type contains
every requested codec string. -/
def FilterCodec : FormatList → List String → FormatList
  | [], _ => []
  | f :: rest, codec =>
    if codec.all (fun c => strContains f.MimeType c) then f :: FilterCodec rest codec
    else FilterCodec rest codec

/-- The inner token loop of `FilterQuality` (`src/unnamed/part_001` lines
52-62): a format is appended at the first quality token whose
discarded-error `Atoi` value equals the itag or which is a substring of the
quality enum or the quality label. -/
def goQualityMatch (quality : List String) (f : Format) : Bool :=
  quality.any fun q =>
    decide (goAtoi q = f.ItagNo) || strContains f.Quality q || strContains f.QualityLabel q

/-- `FormatList.FilterQuality` of `src/unnamed/part_001` (lines 48-65). -/
def FilterQuality : FormatList → List String → FormatList
  | [], _ => []
  | f :: rest, quality =>
    if goQualityMatch quality f then f :: FilterQuality rest quality
    else FilterQuality rest quality

/-- `isVideoDownloadable` of `src/video.go` (lines 90-104): `none` when the
playability status is `"OK"`, the distinct not-embeddable error when the
metadata came from the non-page source (`isVideoPage = false`) and the
response is not playable in embed, and otherwise the generic playability
error carrying status and reason. -/
def isVideoDownloadable (prData : PlayerResponseData) (isVideoPage : Bool) : Option YTError :=
  if prData.PlayabilityStatus.Status == "OK" then none
  else if !isVideoPage && !prData.PlayabilityStatus.PlayableInEmbed then
    some .notPlayableInEmbed
  else
    some (.playabilityStatus prData.PlayabilityStatus.Status prData.PlayabilityStatus.Reason)

/-- `GetStreamURLContext` of `src/unnamed/part_000` (lines 102-113).  The
external decipherer capability (`decipherURL`, implemented outside the
embedded sources) is passed as a function of the video ID and the cipher
payload. -/
def GetStreamURLContext (decipherURL : String → String → Except YTError String)
    (videoID : String) (format : Format) : Except YTError String :=
  if format.URL != "" then .ok format.URL
  else
    let cipher := format.Cipher
    if cipher == "" then .error .cipherNotFound
    else decipherURL videoID cipher

/-- One step of the classification loop of `extractDataFromPlayerResponse`
(`src/video.go` lines 118-128). -/
def classifyFormat (v : Video) (f : Format) : Video :=
  if strHasPrefix f.MimeType "video" then
    if f.AudioChannels = 0 then { v with VideoFormats := v.VideoFormats ++ [f] }
    else { v with VideoAudioFormats := v.VideoAudioFormats ++ [f] }
  else if strHasPrefix f.MimeType "audio" then
    { v with AudioFormats := v.AudioFormats ++ [f] }
  else v

/-- Detail-copying prefix of `extractDataFromPlayerResponse` (`src/video.go`
lines 107-110). -/
def extractDetails (v : Video) (prData : PlayerResponseData) : Video :=
  { v with
    Title := prData.VideoDetails.Title
    Description := prData.VideoDetails.ShortDescription
    Author := prData.VideoDetails.Author
    Thumbnails := prData.VideoDetails.ThumbnailList }

/-- Duration derivation of `extractDataFromPlayerResponse` (`src/video.go`
lines 112-114): a positive parsed seconds value sets the duration, otherwise
the default is kept. -/
def extractDuration (v : Video) (prData : PlayerResponseData) : Video :=
  if 0 < goAtoi prData.Microformat.LengthSeconds then
    { v with Duration := goAtoi prData.Microformat.LengthSeconds }
  else v

/-- `extractDataFromPlayerResponse` of `src/video.go` (lines 106-139):
copies the details, derives the duration from the microformat seconds string,
assigns `Formats` as the concatenation of the two stream-descriptor arrays,
classifies every entry into the views, fails when `Formats` is empty, sorts
all views, and copies the manifest URLs. -/
def extractDataFromPlayerResponse (v : Video) (prData : PlayerResponseData) :
    Except YTError Video :=
  let v1 := extractDuration (extractDetails v prData) prData
  let v2 := { v1 with
    Formats := prData.StreamingData.Formats ++ prData.StreamingData.AdaptiveFormats }
  let v3 := v2.Formats.foldl classifyFormat v2
  if v3.Formats = [] then .error .noFormatsFound
  else
    .ok { v3.SortFormats with
      HLSManifestURL := prData.StreamingData.HlsManifestURL
      DASHManifestURL := prData.StreamingData.DashManifestURL }

/-- Audio itag search loop of `DownloadWithHighQuality` (`src/downloader/downloader.go`
lines 80-92): try a fixed itag preference list in order, keeping the first
format found. -/
def findAudioByItags (list : FormatList) : List Int → Option Format
  | [] => none
  | itag :: itags =>
    match FindByItag list itag with
    | some f => some f
    | none => findAudioByItags list itags

/-- The pure format-selection prefix of `DownloadWithHighQuality`
(`src/downloader/downloader.go` lines 63-101): choose the video-only format
(first after sort when no quality is requested, else by quality lookup), then
the companion audio-only format via the codec-matched itag preference list;
the actual byte transfer that follows is I/O and is embedded separately. -/
def downloadWithHighQualitySelect (v : Video) (quality : String) :
    Except DLError (Format × Format) :=
  match v.VideoFormats with
  | [] => .error .noVideoFormat
  | vf0 :: _ =>
    let videoFormat? := if quality.length = 0 then some vf0 else FindByQuality v.VideoFormats quality
    match videoFormat? with
    | none => .error (.noVideoFormatForQuality quality)
    | some videoFormat =>
      if strContains videoFormat.MimeType "mp4" then
        match findAudioByItags v.AudioFormats [258, 256, 140] with
        | some audioFormat => .ok (videoFormat, audioFormat)
        | none => .error (.noAudioFormatForQuality quality)
      else if strContains videoFormat.MimeType "webm" then
        match findAudioByItags v.AudioFormats [251, 250, 249] with
        | some audioFormat => .ok (videoFormat, audioFormat)
        | none => .error (.noAudioFormatForQuality quality)
      else .error (.unhandledMimeType videoFormat.MimeType)

/-- Abstract file system: a list of (path, content) entries for regular
files; directories are not modelled (the downloader only stats and writes
regular files at the paths relevant to the claims). -/
def FS := List (String × String)

/-- `fileExists` of `src/downloader/downloader.go` (lines 197-203): the path
names an existing regular file. -/
def fileExists (fs : FS) (filename : String) : Bool :=
  fs.any fun e => e.1 == filename

/-- Overwrite or create the file at `path` with `content`. -/
def fsWrite (fs : FS) (path content : String) : FS :=
  (path, content) :: fs.filter fun e => e.1 != path

/-- Content of the file at `path`, if it exists. -/
def fsRead (fs : FS) (path : String) : Option String :=
  (fs.find? fun e => e.1 == path).map fun e => e.2

/-- `Download` of `src/downloader/downloader.go` (lines 41-60) given the
already-resolved destination path: `os.Create` opens the destination with
truncate-create semantics (no existence check), then `videoDLWorker` streams
the response body into it.  `worker` abstracts the outcome of the HTTP
transfer: the streamed bytes on success, or a transport error (in which case
the destination has still been truncated). -/
def Download (fs : FS) (destFile : String) (worker : Except DLError String) :
    Except DLError Unit × FS :=
  let fs := fsWrite fs destFile ""
  match worker with
  | .error e => (.error e, fs)
  | .ok data => (.ok (), fsWrite fs destFile data)

/-- `downloadVideoAudioStreamsAndJoin` of `src/downloader/downloader.go`
(lines 104-157) given the already-resolved destination path: when the
destination file already exists the whole operation stops with the distinct
skip error (the Go code returns the dedicated "⚠ SKIP" message) before any
temporary file, download or mux step; `rest` abstracts those subsequent
effects. -/
def downloadVideoAudioStreamsAndJoin (fs : FS) (videoID destFile : String)
    (rest : FS → Except DLError Unit × FS) : Except DLError Unit × FS :=
  if fileExists fs destFile then (.error (.skipFileExists videoID destFile), fs)
  else rest fs

theorem FilterCodec_eq_filter (l : FormatList) (codec : List String) :
    FilterCodec l codec = l.filter fun f => codec.all fun c => strContains f.MimeType c := by
  induction l with
  | nil => rfl
  | cons f rest ih =>
    by_cases h : (codec.all fun c => strContains f.MimeType c) = true
    · simp [FilterCodec, h, ih]
    · simp [FilterCodec, h, ih, List.filter_cons]

/-- Claim C8: `FilterCodec` with an empty codec list returns the input list
unchanged; with a non-empty list it keeps exactly the formats whose MIME type
contains every one of the given codec strings (the characterization holds for
every codec list), preserving the input order (the result is a sublist of the
input). -/
theorem filterCodec_characterization (l : FormatList) (codec : List String) :
    FilterCodec l [] = l ∧
    (FilterCodec l codec).Sublist l ∧
    ∀ f, f ∈ FilterCodec l codec ↔ f ∈ l ∧ ∀ c ∈ codec, strContains f.MimeType c = true := by
  refine ⟨?_, ?_, ?_⟩
  · rw [FilterCodec_eq_filter]
    simp
  · rw [FilterCodec_eq_filter]
    exact List.filter_sublist l
  · intro f
    rw [FilterCodec_eq_filter]
    simp [List.mem_filter, List.all_eq_true]

theorem FilterQuality_eq_filter (l : FormatList) (quality : List String) :
    FilterQuality l quality = l.filter (goQualityMatch quality) := by
  induction l with
  | nil => rfl
  | cons f rest ih =>
    simp only [FilterQuality, List.filter_cons]
    cases h : goQualityMatch quality f <;> simp [h, ih]

/-- Amended claim C7: `FilterQuality` keeps exactly the formats for which some
token matches — where a token matches when its `strconv.Atoi` value with the
error discarded (hence 0 for a non-numeric token) equals the format's itag, or
the token occurs as a substring of the quality enum or quality label — it
preserves the input order (the result is a sublist of the input), and it is
idempotent for a fixed token list. -/
theorem filterQuality_characterization (l : FormatList) (quality : List String) :
    (FilterQuality l quality).Sublist l ∧
    (∀ f, f ∈ FilterQuality l quality ↔ f ∈ l ∧ ∃ q ∈ quality,
      goAtoi q = f.ItagNo ∨ strContains f.Quality q = true ∨ strContains f.QualityLabel q = true) ∧
    FilterQuality (FilterQuality l quality) quality = FilterQuality l quality := by
  refine ⟨?_, ?_, ?_⟩
  · rw [FilterQuality_eq_filter]
    exact List.filter_sublist l
  · intro f
    rw [FilterQuality_eq_filter]
    simp [List.mem_filter, goQualityMatch, List.any_eq_true, or_assoc]
  · rw [FilterQuality_eq_filter l, FilterQuality_eq_filter]
    exact List.filter_eq_self.mpr fun f hf => (List.mem_filter.mp hf).2

/-- Numeric value of a quality token when the token is an integer numeral
(optional sign followed by digits); a token that is not a numeral has no
numeric value.  Used only for the claim-side predicate below. -/
def specTokenInt? (q : String) : Option Int :=
  match q.data with
  | '-' :: rest => (decDigits? rest).map fun n => -(n : Int)
  | '+' :: rest => (decDigits? rest).map fun n => (n : Int)
  | l => (decDigits? l).map fun n => (n : Int)

/-- Quality-keeping predicate as the claim words it: some token numerically
equal to the itag, or a substring of the quality enum or quality label.
Stated only to compare the claim against the source behaviour. -/
def specQualityKeeps (quality : List String) (f : Format) : Bool :=
  quality.any fun q =>
    (specTokenInt? q == some f.ItagNo) || strContains f.Quality q || strContains f.QualityLabel q

/-- Format with itag 0 used to refute claim C7 as stated. -/
def cexFmtQ : Format := { ItagNo := 0, Quality := "medium", QualityLabel := "480p" }

/-- Counterexample to claim C7 as stated: the non-numeric token "x" matches no
itag numerically and is a substring of neither quality string, yet
`FilterQuality` keeps the itag-0 format, because the code discards the `Atoi`
error and compares the resulting 0 against the itag. -/
theorem filterQuality_atoi_zero_cex :
    FilterQuality [cexFmtQ] ["x"] = [cexFmtQ] ∧ specQualityKeeps ["x"] cexFmtQ = false := by
  constructor
  · rfl
  · rfl

/-- Claim C3: for a player response whose playability status is not "OK",
parsing fails with the distinct not-embeddable error exactly when the
metadata came from the non-page source and the response reports
`playableInEmbed = false`; in every other case it fails with the generic
playability error carrying the response's status and reason. -/
theorem isVideoDownloadable_playability_errors (prData : PlayerResponseData)
    (isVideoPage : Bool) (h : prData.PlayabilityStatus.Status ≠ "OK") :
    (isVideoPage = false → prData.PlayabilityStatus.PlayableInEmbed = false →
      isVideoDownloadable prData isVideoPage = some .notPlayableInEmbed) ∧
    (isVideoPage = true ∨ prData.PlayabilityStatus.PlayableInEmbed = true →
      isVideoDownloadable prData isVideoPage =
        some (.playabilityStatus prData.PlayabilityStatus.Status
          prData.PlayabilityStatus.Reason)) := by
  have hs : (prData.PlayabilityStatus.Status == "OK") = false := by
    simpa using h
  constructor
  · intro h1 h2
    simp [isVideoDownloadable, hs, h1, h2]
  · intro h1
    rcases h1 with h1 | h1 <;> simp [isVideoDownloadable, hs, h1]

/-- Player response used to witness claim C3. -/
def cexPr : PlayerResponseData :=
  { PlayabilityStatus := { Status := "LOGIN_REQUIRED", Reason := "age check", PlayableInEmbed := false } }

theorem isVideoDownloadable_playability_errors_witness :
    isVideoDownloadable cexPr false = some .notPlayableInEmbed ∧
    isVideoDownloadable cexPr true =
      some (.playabilityStatus "LOGIN_REQUIRED" "age check") :=
  ⟨(isVideoDownloadable_playability_errors cexPr false (by decide)).1 rfl rfl,
   (isVideoDownloadable_playability_errors cexPr true (by decide)).2 (Or.inl rfl)⟩

/-- Claim C4: stream-URL resolution returns the format's direct URL unchanged
when it is non-empty; with an empty URL and an empty cipher payload it fails
with the cipher-not-found error; with an empty URL and a cipher payload
present it returns exactly the decipherer's result for the video ID and the
cipher payload, successful or not. -/
theorem getStreamURL_resolution (decipherURL : String → String → Except YTError String)
    (videoID : String) (format : Format) :
    (format.URL ≠ "" → GetStreamURLContext decipherURL videoID format = .ok format.URL) ∧
    (format.URL = "" → format.Cipher = "" →
      GetStreamURLContext decipherURL videoID format = .error .cipherNotFound) ∧
    (format.URL = "" → format.Cipher ≠ "" →
      GetStreamURLContext decipherURL videoID format = decipherURL videoID format.Cipher) := by
  refine ⟨fun h1 => ?_, fun h1 h2 => ?_, fun h1 h2 => ?_⟩ <;>
    simp [GetStreamURLContext, h1, *]

/-- Decipherer stand-in used to witness claim C4. -/
def cexDecipher : String → String → Except YTError String :=
  fun _ cipher => .ok ("deciphered:" ++ cipher)

theorem getStreamURL_resolution_witness :
    GetStreamURLContext cexDecipher "vid" { URL := "http://media" } = .ok "http://media" ∧
    GetStreamURLContext cexDecipher "vid" {} = .error .cipherNotFound ∧
    GetStreamURLContext cexDecipher "vid" { Cipher := "sig=abc" } = .ok "deciphered:sig=abc" := by
  refine ⟨(getStreamURL_resolution cexDecipher "vid" _).1 (by decide),
    (getStreamURL_resolution cexDecipher "vid" _).2.1 rfl rfl, ?_⟩
  rw [(getStreamURL_resolution cexDecipher "vid" _).2.2 rfl (by decide)]
  rfl

/-- Claim C6: when the destination file of a split-mode download already
exists, the whole operation stops before any temporary file, download or mux
step (the abstracted remainder `rest` is never run), the outcome is the
distinct skip error, and the file system — in particular the destination
file — is left untouched. -/
theorem splitDownload_skips_existing_dest (fs : FS) (videoID destFile : String)
    (rest : FS → Except DLError Unit × FS) (h : fileExists fs destFile = true) :
    downloadVideoAudioStreamsAndJoin fs videoID destFile rest =
      (.error (.skipFileExists videoID destFile), fs) := by
  simp [downloadVideoAudioStreamsAndJoin, h]

/-- File system used to witness claims C6 and C10: the destination exists. -/
def cexFS : FS := [("out.mp4", "old-bytes")]

theorem splitDownload_skips_existing_dest_witness :
    downloadVideoAudioStreamsAndJoin cexFS "vID" "out.mp4" (fun fs => (.ok (), fs)) =
      (.error (.skipFileExists "vID" "out.mp4"), cexFS) :=
  splitDownload_skips_existing_dest cexFS "vID" "out.mp4" _ (by decide)

theorem fsRead_fsWrite (fs : FS) (path content : String) :
    fsRead (fsWrite fs path content) path = some content := by
  simp [fsRead, fsWrite, List.find?]

/-- Claim C10: the single-format download performs no destination-exists
check — for every file system, including one where the destination already
exists, it truncate-creates the destination (so even a failed transfer leaves
it truncated) and on success overwrites it with the streamed bytes and
reports success — in contrast to the split-mode path, which skips when the
destination exists. -/
theorem download_overwrites_existing_dest (fs : FS) (destFile data videoID : String)
    (rest : FS → Except DLError Unit × FS) :
    (Download fs destFile (.ok data)).1 = .ok () ∧
    fsRead (Download fs destFile (.ok data)).2 destFile = some data ∧
    (∀ e, fsRead (Download fs destFile (.error e)).2 destFile = some "") ∧
    (fileExists fs destFile = true →
      downloadVideoAudioStreamsAndJoin fs videoID destFile rest =
        (.error (.skipFileExists videoID destFile), fs)) := by
  refine ⟨rfl, ?_, fun e => ?_, fun h => ?_⟩
  · show fsRead (fsWrite (fsWrite fs destFile "") destFile data) destFile = some data
    exact fsRead_fsWrite ..
  · show fsRead (fsWrite fs destFile "") destFile = some ""
    exact fsRead_fsWrite ..
  · simp [downloadVideoAudioStreamsAndJoin, h]

theorem download_overwrites_existing_dest_witness :
    fsRead (Download cexFS "out.mp4" (.ok "new-bytes")).2 "out.mp4" = some "new-bytes" ∧
    downloadVideoAudioStreamsAndJoin cexFS "vID2" "out.mp4" (fun fs => (.ok (), fs)) =
      (.error (.skipFileExists "vID2" "out.mp4"), cexFS) :=
  ⟨(download_overwrites_existing_dest cexFS "out.mp4" "new-bytes" "vID2"
      (fun fs => (.ok (), fs))).2.1,
   (download_overwrites_existing_dest cexFS "out.mp4" "new-bytes" "vID2"
      (fun fs => (.ok (), fs))).2.2.2 (by decide)⟩

/-- Claim C2: after the video-only format `vf` is chosen (first of the sorted
video-only view, no explicit quality), the companion audio format is found by
trying the fixed codec-matched itag preference list in order — 258, 256, 140
for an MPEG-4-family video MIME, 251, 250, 249 for a WebM-family one — any
other video container fails immediately with the unsupported-mime error, and
when no itag of the list is present the operation fails with the
no-audio-format-found error. -/
theorem downloadWithHighQuality_audio_selection (v : Video) (vf : Format)
    (rest : FormatList) (h1 : v.VideoFormats = vf :: rest) :
    (strContains vf.MimeType "mp4" = true →
      (∀ af, FindByItag v.AudioFormats 258 = some af →
        downloadWithHighQualitySelect v "" = .ok (vf, af)) ∧
      (FindByItag v.AudioFormats 258 = none →
        ∀ af, FindByItag v.AudioFormats 256 = some af →
        downloadWithHighQualitySelect v "" = .ok (vf, af)) ∧
      (FindByItag v.AudioFormats 258 = none → FindByItag v.AudioFormats 256 = none →
        ∀ af, FindByItag v.AudioFormats 140 = some af →
        downloadWithHighQualitySelect v "" = .ok (vf, af)) ∧
      (FindByItag v.AudioFormats 258 = none → FindByItag v.AudioFormats 256 = none →
        FindByItag v.AudioFormats 140 = none →
        downloadWithHighQualitySelect v "" = .error (.noAudioFormatForQuality ""))) ∧
    (strContains vf.MimeType "mp4" = false → strContains vf.MimeType "webm" = true →
      (∀ af, FindByItag v.AudioFormats 251 = some af →
        downloadWithHighQualitySelect v "" = .ok (vf, af)) ∧
      (FindByItag v.AudioFormats 251 = none →
        ∀ af, FindByItag v.AudioFormats 250 = some af →
        downloadWithHighQualitySelect v "" = .ok (vf, af)) ∧
      (FindByItag v.AudioFormats 251 = none → FindByItag v.AudioFormats 250 = none →
        ∀ af, FindByItag v.AudioFormats 249 = some af →
        downloadWithHighQualitySelect v "" = .ok (vf, af)) ∧
      (FindByItag v.AudioFormats 251 = none → FindByItag v.AudioFormats 250 = none →
        FindByItag v.AudioFormats 249 = none →
        downloadWithHighQualitySelect v "" = .error (.noAudioFormatForQuality ""))) ∧
    (strContains vf.MimeType "mp4" = false → strContains vf.MimeType "webm" = false →
      downloadWithHighQualitySelect v "" = .error (.unhandledMimeType vf.MimeType)) := by
  refine ⟨fun hmp4 => ⟨?_, ?_, ?_, ?_⟩, fun hmp4 hwebm => ⟨?_, ?_, ?_, ?_⟩, fun hmp4 hwebm => ?_⟩ <;>
    intros <;>
    simp_all [downloadWithHighQualitySelect, h1, findAudioByItags]

/-- Video-only MPEG-4 format used to witness claim C2. -/
def cexVfMp4 : Format :=
  { ItagNo := 137, MimeType := "video/mp4; codecs=avc1.640028", Width := 1920, FPS := 30 }

/-- Audio formats with itags 140 and 256 used to witness claim C2. -/
def cexA140 : Format := { ItagNo := 140, MimeType := "audio/mp4; codecs=mp4a.40.2", AudioChannels := 2 }

def cexA256 : Format := { ItagNo := 256, MimeType := "audio/mp4; codecs=mp4a.40.5", AudioChannels := 6 }

def cexHQVideo : Video := { VideoFormats := [cexVfMp4], AudioFormats := [cexA140, cexA256] }

theorem downloadWithHighQuality_audio_selection_witness :
    downloadWithHighQualitySelect cexHQVideo "" = .ok (cexVfMp4, cexA256) :=
  (((downloadWithHighQuality_audio_selection cexHQVideo cexVfMp4 [] rfl).1
    (by decide)).2.1 (by decide)) cexA256 (by decide)

/-- Width-descending, then frame-rate-descending order between two formats. -/
def widthFpsGE (fa fb : Format) : Prop :=
  fb.Width < fa.Width ∨ (fa.Width = fb.Width ∧ fb.FPS ≤ fa.FPS)

theorem sortFormat_false_widthFpsGE {fa fb : Format} (h : SortFormat fb fa = false) :
    widthFpsGE fa fb := by
  unfold SortFormat at h
  by_cases hw : fb.Width = fa.Width
  · rw [if_pos hw] at h
    by_cases hf : fb.FPS = fa.FPS
    · exact Or.inr ⟨hw.symm, le_of_eq hf⟩
    · rw [if_neg hf] at h
      simp only [decide_eq_false_iff_not, not_lt] at h
      exact Or.inr ⟨hw.symm, h⟩
  · rw [if_neg hw] at h
    simp only [decide_eq_false_iff_not, not_lt] at h
    exact Or.inl (lt_of_le_of_ne h hw)

theorem sortFormat_true_widthFpsGE {fa fb : Format} (h : SortFormat fa fb = true) :
    widthFpsGE fa fb := by
  unfold SortFormat at h
  by_cases hw : fa.Width = fb.Width
  · rw [if_pos hw] at h
    by_cases hf : fa.FPS = fb.FPS
    · exact Or.inr ⟨hw, le_of_eq hf.symm⟩
    · rw [if_neg hf] at h
      simp only [decide_eq_true_eq] at h
      exact Or.inr ⟨hw, le_of_lt h⟩
  · rw [if_neg hw] at h
    simp only [decide_eq_true_eq] at h
    exact Or.inl h

theorem widthFpsGE_trans {fa fb fc : Format} (h1 : widthFpsGE fa fb) (h2 : widthFpsGE fb fc) :
    widthFpsGE fa fc := by
  unfold widthFpsGE at *
  omega

theorem pairwise_orderedInsert_widthFpsGE (a : Format) (l : List Format)
    (h : l.Pairwise widthFpsGE) :
    (l.orderedInsert formatBefore a).Pairwise widthFpsGE := by
  induction l with
  | nil => simp
  | cons b l ih =>
    rw [List.orderedInsert]
    obtain ⟨hb, hl⟩ := List.pairwise_cons.mp h
    by_cases hr : formatBefore a b
    · rw [if_pos hr]
      refine List.pairwise_cons.mpr ⟨?_, h⟩
      intro x hx
      rcases List.mem_cons.mp hx with rfl | hxl
      · exact sortFormat_false_widthFpsGE hr
      · exact widthFpsGE_trans (sortFormat_false_widthFpsGE hr) (hb x hxl)
    · rw [if_neg hr]
      refine List.pairwise_cons.mpr ⟨?_, ih hl⟩
      intro x hx
      rcases (List.mem_orderedInsert formatBefore).mp hx with rfl | hxl
      · have ht : SortFormat b x = true := by
          cases hsf : SortFormat b x
          · exact absurd hsf hr
          · rfl
        exact sortFormat_true_widthFpsGE ht
      · exact hb x hxl

theorem pairwise_sortFormatList (l : FormatList) :
    (sortFormatList l).Pairwise widthFpsGE := by
  unfold sortFormatList
  induction l with
  | nil => simp
  | cons f l ih => exact pairwise_orderedInsert_widthFpsGE f _ ih

/-- Claim C9: each of the four sorted views is ordered by pixel width
descending first and, among equal widths, by frame rate descending; and the
sort is stable — two entries that the full comparator orders strictly in
neither direction keep their relative fetch order in the sorted output of
every view. -/
theorem sortFormats_width_fps_stable (v : Video) (a b : Format) :
    (v.SortFormats.Formats.Pairwise widthFpsGE ∧
     v.SortFormats.VideoFormats.Pairwise widthFpsGE ∧
     v.SortFormats.VideoAudioFormats.Pairwise widthFpsGE ∧
     v.SortFormats.AudioFormats.Pairwise widthFpsGE) ∧
    (SortFormat a b = false → SortFormat b a = false →
      ([a, b].Sublist v.Formats → [a, b].Sublist v.SortFormats.Formats) ∧
      ([a, b].Sublist v.VideoFormats → [a, b].Sublist v.SortFormats.VideoFormats) ∧
      ([a, b].Sublist v.VideoAudioFormats → [a, b].Sublist v.SortFormats.VideoAudioFormats) ∧
      ([a, b].Sublist v.AudioFormats → [a, b].Sublist v.SortFormats.AudioFormats)) := by
  refine ⟨⟨pairwise_sortFormatList _, pairwise_sortFormatList _,
    pairwise_sortFormatList _, pairwise_sortFormatList _⟩, fun h1 h2 => ⟨?_, ?_, ?_, ?_⟩⟩ <;>
    exact fun hs => List.pair_sublist_insertionSort (show formatBefore a b from h2) hs

/-- Two comparator-equal formats (same width, frame rate, codec rank and
bitrate) differing only in itag and URL, used to witness claim C9. -/
def cexStableA : Format :=
  { ItagNo := 1, MimeType := "video/mp4; codecs=avc1.4d401f", Width := 1280, FPS := 30,
    Bitrate := 500000, URL := "http://a" }

def cexStableB : Format :=
  { ItagNo := 2, MimeType := "video/mp4; codecs=avc1.4d401e", Width := 1280, FPS := 30,
    Bitrate := 500000, URL := "http://b" }

def cexStableVid : Video := { Formats := [cexStableA, cexStableB] }

theorem sortFormats_width_fps_stable_witness :
    [cexStableA, cexStableB].Sublist cexStableVid.SortFormats.Formats :=
  ((sortFormats_width_fps_stable cexStableVid cexStableA cexStableB).2
    (by decide) (by decide)).1 (by decide)

theorem sortFormat_video_rank_lt {fi fj : Format} (hw : fi.Width = fj.Width)
    (hf : fi.FPS = fj.FPS) (hbr : ¬(fi.FPS = 0 ∧ 0 < fi.AudioChannels ∧ 0 < fj.AudioChannels))
    (hr : videoCodecRank fi.MimeType < videoCodecRank fj.MimeType) :
    SortFormat fi fj = true ∧ SortFormat fj fi = false := by
  have hbr' : ¬(fj.FPS = 0 ∧ 0 < fj.AudioChannels ∧ 0 < fi.AudioChannels) := by
    intro hx
    exact hbr ⟨hf.trans hx.1, hx.2.2, hx.2.1⟩
  constructor
  · unfold SortFormat
    rw [if_pos hw, if_pos hf, if_neg hbr, if_neg (ne_of_lt hr)]
    simpa using hr
  · unfold SortFormat
    rw [if_pos hw.symm, if_pos hf.symm, if_neg hbr', if_neg (ne_of_gt hr)]
    simpa using Nat.lt_asymm hr

theorem sortFormat_video_rank_eq {fi fj : Format} (hw : fi.Width = fj.Width)
    (hf : fi.FPS = fj.FPS) (hbr : ¬(fi.FPS = 0 ∧ 0 < fi.AudioChannels ∧ 0 < fj.AudioChannels))
    (hr : videoCodecRank fi.MimeType = videoCodecRank fj.MimeType) :
    SortFormat fi fj = decide (fj.Bitrate < fi.Bitrate) := by
  unfold SortFormat
  rw [if_pos hw, if_pos hf, if_neg hbr, if_pos hr]

theorem sortFormat_audio_rank_lt {fi fj : Format} (hw : fi.Width = fj.Width)
    (hf : fi.FPS = fj.FPS) (h0 : fi.FPS = 0) (hci : 0 < fi.AudioChannels)
    (hcj : 0 < fj.AudioChannels)
    (hr : audioCodecRank fi.MimeType < audioCodecRank fj.MimeType) :
    SortFormat fi fj = true ∧ SortFormat fj fi = false := by
  constructor
  · unfold SortFormat
    rw [if_pos hw, if_pos hf, if_pos ⟨h0, hci, hcj⟩, if_neg (ne_of_lt hr)]
    simpa using hr
  · unfold SortFormat
    rw [if_pos hw.symm, if_pos hf.symm, if_pos ⟨hf ▸ h0, hcj, hci⟩, if_neg (ne_of_gt hr)]
    simpa using Nat.lt_asymm hr

/-- Amended claim C1: for two formats with equal width and equal frame rate
the codec rank determines the order, but the Go codec map defaults to 0 for
an unrecognized codec and smaller map values sort first, so in the video
comparison an unrecognized codec ranks highest, then "av01", then "vp9",
then "avc1" lowest (ties broken by higher bitrate), and in the pure-audio
comparison (frame rate zero on both, audio channels on both) an unrecognized
codec ranks highest, then a MIME containing "mp4", then one containing
"opus". -/
theorem sortFormat_codec_rank_order (fi fj : Format) (hw : fi.Width = fj.Width)
    (hf : fi.FPS = fj.FPS) :
    (¬(fi.FPS = 0 ∧ 0 < fi.AudioChannels ∧ 0 < fj.AudioChannels) →
      (strContains fi.MimeType "av01" = false → strContains fi.MimeType "vp9" = false →
       strContains fi.MimeType "avc1" = false →
       (strContains fj.MimeType "av01" = true ∨ strContains fj.MimeType "vp9" = true ∨
        strContains fj.MimeType "avc1" = true) →
        SortFormat fi fj = true ∧ SortFormat fj fi = false) ∧
      (strContains fi.MimeType "av01" = true → strContains fj.MimeType "av01" = false →
       (strContains fj.MimeType "vp9" = true ∨ strContains fj.MimeType "avc1" = true) →
        SortFormat fi fj = true ∧ SortFormat fj fi = false) ∧
      (strContains fi.MimeType "av01" = false → strContains fi.MimeType "vp9" = true →
       strContains fj.MimeType "av01" = false → strContains fj.MimeType "vp9" = false →
       strContains fj.MimeType "avc1" = true →
        SortFormat fi fj = true ∧ SortFormat fj fi = false) ∧
      (videoCodecRank fi.MimeType = videoCodecRank fj.MimeType →
        SortFormat fi fj = decide (fj.Bitrate < fi.Bitrate))) ∧
    (fi.FPS = 0 → 0 < fi.AudioChannels → 0 < fj.AudioChannels →
      (strContains fi.MimeType "mp4" = false → strContains fi.MimeType "opus" = false →
       (strContains fj.MimeType "mp4" = true ∨ strContains fj.MimeType "opus" = true) →
        SortFormat fi fj = true ∧ SortFormat fj fi = false) ∧
      (strContains fi.MimeType "mp4" = true → strContains fj.MimeType "mp4" = false →
       strContains fj.MimeType "opus" = true →
        SortFormat fi fj = true ∧ SortFormat fj fi = false)) := by
  refine ⟨fun hbr => ⟨?_, ?_, ?_, ?_⟩, fun h0 hci hcj => ⟨?_, ?_⟩⟩
  · intro a1 a2 a3 hrec
    refine sortFormat_video_rank_lt hw hf hbr ?_
    have hi : videoCodecRank fi.MimeType = 0 := by simp [videoCodecRank, a1, a2, a3]
    have hj : 0 < videoCodecRank fj.MimeType := by
      unfold videoCodecRank
      rcases hrec with h | h | h <;> split_ifs <;> simp_all
    omega
  · intro a1 b1 hrec
    refine sortFormat_video_rank_lt hw hf hbr ?_
    have hi : videoCodecRank fi.MimeType = 1 := by simp [videoCodecRank, a1]
    have hj : 1 < videoCodecRank fj.MimeType := by
      unfold videoCodecRank
      rcases hrec with h | h <;> split_ifs <;> simp_all
    omega
  · intro a1 a2 b1 b2 b3
    refine sortFormat_video_rank_lt hw hf hbr ?_
    have hi : videoCodecRank fi.MimeType = 2 := by simp [videoCodecRank, a1, a2]
    have hj : videoCodecRank fj.MimeType = 3 := by simp [videoCodecRank, b1, b2, b3]
    omega
  · exact fun hr => sortFormat_video_rank_eq hw hf hbr hr
  · intro a1 a2 hrec
    refine sortFormat_audio_rank_lt hw hf h0 hci hcj ?_
    have hi : audioCodecRank fi.MimeType = 0 := by simp [audioCodecRank, a1, a2]
    have hj : 0 < audioCodecRank fj.MimeType := by
      unfold audioCodecRank
      rcases hrec with h | h <;> split_ifs <;> simp_all
    omega
  · intro a1 b1 b2
    refine sortFormat_audio_rank_lt hw hf h0 hci hcj ?_
    have hi : audioCodecRank fi.MimeType = 1 := by simp [audioCodecRank, a1]
    have hj : audioCodecRank fj.MimeType = 2 := by simp [audioCodecRank, b1, b2]
    omega

/-- Format with a codec recognized by none of the comparator's substrings. -/
def cexUnkCodec : Format :=
  { ItagNo := 99, MimeType := "video/x-msvideo; codecs=xvid", Width := 1280, FPS := 30,
    Bitrate := 100 }

/-- AV1 format of the same width and frame rate but far higher bitrate. -/
def cexAv01 : Format :=
  { ItagNo := 398, MimeType := "video/mp4; codecs=av01.0.08M.08", Width := 1280, FPS := 30,
    Bitrate := 900000 }

/-- Counterexample to claim C1 as stated: with equal width and frame rate the
claim puts "av01" above an unrecognized codec, but the comparator sorts the
unrecognized codec (map default 0) strictly before the "av01" format (rank
1), even though the "av01" format also has the higher bitrate. -/
theorem sortFormat_unrecognized_rank_cex :
    SortFormat cexUnkCodec cexAv01 = true ∧ SortFormat cexAv01 cexUnkCodec = false := by
  constructor <;> rfl

theorem sortFormat_codec_rank_order_witness :
    SortFormat cexUnkCodec cexAv01 = true ∧ SortFormat cexAv01 cexUnkCodec = false :=
  ((sortFormat_codec_rank_order cexUnkCodec cexAv01 rfl rfl).1 (by decide)).1
    (by decide) (by decide) (by decide) (Or.inl (by decide))

/-- Classification predicate of the video-only view (`src/video.go` lines
119-121): MIME prefix "video" and zero audio channels. -/
def isVideoOnly (f : Format) : Bool :=
  strHasPrefix f.MimeType "video" && decide (f.AudioChannels = 0)

/-- Classification predicate of the combined view (`src/video.go` lines
119-123): MIME prefix "video" and nonzero audio channels. -/
def isVideoAudio (f : Format) : Bool :=
  strHasPrefix f.MimeType "video" && !decide (f.AudioChannels = 0)

/-- Classification predicate of the audio-only view (`src/video.go` lines
125-127): the else-if branch, MIME prefix "audio" and not prefix "video". -/
def isAudioOnly (f : Format) : Bool :=
  !strHasPrefix f.MimeType "video" && strHasPrefix f.MimeType "audio"

theorem classify_foldl (fs : FormatList) : ∀ v : Video,
    (fs.foldl classifyFormat v).VideoFormats = v.VideoFormats ++ fs.filter isVideoOnly ∧
    (fs.foldl classifyFormat v).VideoAudioFormats = v.VideoAudioFormats ++ fs.filter isVideoAudio ∧
    (fs.foldl classifyFormat v).AudioFormats = v.AudioFormats ++ fs.filter isAudioOnly ∧
    (fs.foldl classifyFormat v).Formats = v.Formats := by
  induction fs with
  | nil => intro v; simp
  | cons f fs ih =>
    intro v
    obtain ⟨ih1, ih2, ih3, ih4⟩ := ih (classifyFormat v f)
    rw [List.foldl_cons]
    refine ⟨?_, ?_, ?_, ?_⟩
    · rw [ih1]
      by_cases hv : strHasPrefix f.MimeType "video" = true <;>
        by_cases hc : f.AudioChannels = 0 <;>
        by_cases ha : strHasPrefix f.MimeType "audio" = true <;>
        simp [classifyFormat, isVideoOnly, hv, hc, ha, List.filter_cons]
    · rw [ih2]
      by_cases hv : strHasPrefix f.MimeType "video" = true <;>
        by_cases hc : f.AudioChannels = 0 <;>
        by_cases ha : strHasPrefix f.MimeType "audio" = true <;>
        simp [classifyFormat, isVideoAudio, hv, hc, ha, List.filter_cons]
    · rw [ih3]
      by_cases hv : strHasPrefix f.MimeType "video" = true <;>
        by_cases hc : f.AudioChannels = 0 <;>
        by_cases ha : strHasPrefix f.MimeType "audio" = true <;>
        simp [classifyFormat, isAudioOnly, hv, hc, ha, List.filter_cons]
    · rw [ih4]
      by_cases hv : strHasPrefix f.MimeType "video" = true <;>
        by_cases hc : f.AudioChannels = 0 <;>
        by_cases ha : strHasPrefix f.MimeType "audio" = true <;>
        simp [classifyFormat, hv, hc, ha]

theorem video_audio_mutually_exclusive (m : String) :
    ¬(strHasPrefix m "video" = true ∧ strHasPrefix m "audio" = true) := by
  rintro ⟨hv, ha⟩
  unfold strHasPrefix at hv ha
  cases hm : m.data with
  | nil =>
    rw [hm] at hv
    exact absurd hv (by decide)
  | cons c cs =>
    rw [hm] at hv ha
    simp only [show ("video".data) = ['v', 'i', 'd', 'e', 'o'] from rfl,
      show ("audio".data) = ['a', 'u', 'd', 'i', 'o'] from rfl,
      List.isPrefixOf, Bool.and_eq_true, beq_iff_eq] at hv ha
    exact absurd (hv.1.trans ha.1.symm) (by decide)

theorem extractDuration_views (v : Video) (prData : PlayerResponseData) :
    (extractDuration v prData).VideoFormats = v.VideoFormats ∧
    (extractDuration v prData).VideoAudioFormats = v.VideoAudioFormats ∧
    (extractDuration v prData).AudioFormats = v.AudioFormats := by
  unfold extractDuration
  split <;> exact ⟨rfl, rfl, rfl⟩

theorem sortFormatList_perm (l : FormatList) : (sortFormatList l).Perm l :=
  List.perm_insertionSort formatBefore l

theorem extract_core (w : Video) (hls dash : String)
    (hwV : w.VideoFormats = []) (hwVA : w.VideoAudioFormats = [])
    (hwA : w.AudioFormats = []) :
    (w.Formats = [] →
      (if (w.Formats.foldl classifyFormat w).Formats = [] then
        (.error .noFormatsFound : Except YTError Video)
       else .ok { (w.Formats.foldl classifyFormat w).SortFormats with
         HLSManifestURL := hls, DASHManifestURL := dash }) = .error .noFormatsFound) ∧
    (∀ v', (if (w.Formats.foldl classifyFormat w).Formats = [] then
        (.error .noFormatsFound : Except YTError Video)
       else .ok { (w.Formats.foldl classifyFormat w).SortFormats with
         HLSManifestURL := hls, DASHManifestURL := dash }) = .ok v' →
      v'.Formats.Perm w.Formats ∧
      v'.VideoFormats.Perm (w.Formats.filter isVideoOnly) ∧
      v'.VideoAudioFormats.Perm (w.Formats.filter isVideoAudio) ∧
      v'.AudioFormats.Perm (w.Formats.filter isAudioOnly) ∧
      (∀ f, f ∈ v'.VideoFormats ↔
        f ∈ w.Formats ∧ strHasPrefix f.MimeType "video" = true ∧ f.AudioChannels = 0) ∧
      (∀ f, f ∈ v'.VideoAudioFormats ↔
        f ∈ w.Formats ∧ strHasPrefix f.MimeType "video" = true ∧ f.AudioChannels ≠ 0) ∧
      (∀ f, f ∈ v'.AudioFormats ↔ f ∈ w.Formats ∧ strHasPrefix f.MimeType "audio" = true) ∧
      (∀ f, strHasPrefix f.MimeType "video" = false → strHasPrefix f.MimeType "audio" = false →
        f ∉ v'.VideoFormats ∧ f ∉ v'.VideoAudioFormats ∧ f ∉ v'.AudioFormats) ∧
      (∀ f, ¬(f ∈ v'.VideoFormats ∧ f ∈ v'.VideoAudioFormats) ∧
        ¬(f ∈ v'.VideoFormats ∧ f ∈ v'.AudioFormats) ∧
        ¬(f ∈ v'.VideoAudioFormats ∧ f ∈ v'.AudioFormats))) := by
  obtain ⟨c1, c2, c3, c4⟩ := classify_foldl w.Formats w
  rw [hwV, List.nil_append] at c1
  rw [hwVA, List.nil_append] at c2
  rw [hwA, List.nil_append] at c3
  constructor
  · intro hnil
    rw [if_pos (c4.trans hnil)]
  · intro v' hok
    by_cases hF : (w.Formats.foldl classifyFormat w).Formats = []
    · rw [if_pos hF] at hok
      simp at hok
    · rw [if_neg hF] at hok
      injection hok with h
      subst h
      have e1 : ({ (w.Formats.foldl classifyFormat w).SortFormats with
          HLSManifestURL := hls, DASHManifestURL := dash } : Video).Formats =
          sortFormatList (w.Formats.foldl classifyFormat w).Formats := rfl
      have e2 : ({ (w.Formats.foldl classifyFormat w).SortFormats with
          HLSManifestURL := hls, DASHManifestURL := dash } : Video).VideoFormats =
          sortFormatList (w.Formats.foldl classifyFormat w).VideoFormats := rfl
      have e3 : ({ (w.Formats.foldl classifyFormat w).SortFormats with
          HLSManifestURL := hls, DASHManifestURL := dash } : Video).VideoAudioFormats =
          sortFormatList (w.Formats.foldl classifyFormat w).VideoAudioFormats := rfl
      have e4 : ({ (w.Formats.foldl classifyFormat w).SortFormats with
          HLSManifestURL := hls, DASHManifestURL := dash } : Video).AudioFormats =
          sortFormatList (w.Formats.foldl classifyFormat w).AudioFormats := rfl
      have p1 : ({ (w.Formats.foldl classifyFormat w).SortFormats with
          HLSManifestURL := hls, DASHManifestURL := dash } : Video).Formats.Perm w.Formats := by
        rw [e1, c4]
        exact sortFormatList_perm _
      have p2 : ({ (w.Formats.foldl classifyFormat w).SortFormats with
          HLSManifestURL := hls, DASHManifestURL := dash } : Video).VideoFormats.Perm
          (w.Formats.filter isVideoOnly) := by
        rw [e2, c1]
        exact sortFormatList_perm _
      have p3 : ({ (w.Formats.foldl classifyFormat w).SortFormats with
          HLSManifestURL := hls, DASHManifestURL := dash } : Video).VideoAudioFormats.Perm
          (w.Formats.filter isVideoAudio) := by
        rw [e3, c2]
        exact sortFormatList_perm _
      have p4 : ({ (w.Formats.foldl classifyFormat w).SortFormats with
          HLSManifestURL := hls, DASHManifestURL := dash } : Video).AudioFormats.Perm
          (w.Formats.filter isAudioOnly) := by
        rw [e4, c3]
        exact sortFormatList_perm _
      have m1 : ∀ f, f ∈ ({ (w.Formats.foldl classifyFormat w).SortFormats with
          HLSManifestURL := hls, DASHManifestURL := dash } : Video).VideoFormats ↔
          f ∈ w.Formats ∧ strHasPrefix f.MimeType "video" = true ∧ f.AudioChannels = 0 := by
        intro f
        rw [p2.mem_iff, List.mem_filter]
        simp [isVideoOnly]
      have m2 : ∀ f, f ∈ ({ (w.Formats.foldl classifyFormat w).SortFormats with
          HLSManifestURL := hls, DASHManifestURL := dash } : Video).VideoAudioFormats ↔
          f ∈ w.Formats ∧ strHasPrefix f.MimeType "video" = true ∧ f.AudioChannels ≠ 0 := by
        intro f
        rw [p3.mem_iff, List.mem_filter]
        simp [isVideoAudio]
      have m3 : ∀ f, f ∈ ({ (w.Formats.foldl classifyFormat w).SortFormats with
          HLSManifestURL := hls, DASHManifestURL := dash } : Video).AudioFormats ↔
          f ∈ w.Formats ∧ strHasPrefix f.MimeType "audio" = true := by
        intro f
        rw [p4.mem_iff, List.mem_filter]
        simp only [isAudioOnly, Bool.and_eq_true, Bool.not_eq_true']
        constructor
        · rintro ⟨hm, _, ha⟩
          exact ⟨hm, ha⟩
        · rintro ⟨hm, ha⟩
          refine ⟨hm, ?_, ha⟩
          cases hv : strHasPrefix f.MimeType "video"
          · rfl
          · exact absurd ⟨hv, ha⟩ (video_audio_mutually_exclusive f.MimeType)
      refine ⟨p1, p2, p3, p4, m1, m2, m3, ?_, ?_⟩
      · intro f hnv hna
        refine ⟨?_, ?_, ?_⟩
        · intro hmem
          exact absurd ((m1 f).mp hmem).2.1 (by simp [hnv])
        · intro hmem
          exact absurd ((m2 f).mp hmem).2.1 (by simp [hnv])
        · intro hmem
          exact absurd ((m3 f).mp hmem).2 (by simp [hna])
      · intro f
        refine ⟨?_, ?_, ?_⟩
        · rintro ⟨ha, hb⟩
          exact absurd ((m1 f).mp ha).2.2 ((m2 f).mp hb).2.2
        · rintro ⟨ha, hb⟩
          exact absurd ⟨((m1 f).mp ha).2.1, ((m3 f).mp hb).2⟩
            (video_audio_mutually_exclusive f.MimeType)
        · rintro ⟨ha, hb⟩
          exact absurd ⟨((m2 f).mp ha).2.1, ((m3 f).mp hb).2⟩
            (video_audio_mutually_exclusive f.MimeType)

/-- Amended claim C5: after a successful parse, every format whose MIME type
has prefix "video" and zero audio channels is in the video-only view, every
format with prefix "video" and nonzero audio channels is in the combined
view, every format with prefix "audio" is in the audio-only view, formats
matching neither prefix appear in the all-formats list only, the three views
are pairwise disjoint and each is a permutation of the correspondingly
filtered sublist of the concatenation of the two stream-descriptor arrays —
the all-formats list itself being a permutation of that concatenation (all
four lists are re-sorted, so they need not be sublists of the concatenation)
— and if the concatenation is empty the parse fails with a no-formats error
instead of succeeding. -/
theorem extract_formats_classification (v : Video) (prData : PlayerResponseData)
    (L : FormatList)
    (hL : prData.StreamingData.Formats ++ prData.StreamingData.AdaptiveFormats = L)
    (h1 : v.VideoFormats = []) (h2 : v.VideoAudioFormats = []) (h3 : v.AudioFormats = []) :
    (L = [] → extractDataFromPlayerResponse v prData = .error .noFormatsFound) ∧
    (∀ v', extractDataFromPlayerResponse v prData = .ok v' →
      v'.Formats.Perm L ∧
      v'.VideoFormats.Perm (L.filter isVideoOnly) ∧
      v'.VideoAudioFormats.Perm (L.filter isVideoAudio) ∧
      v'.AudioFormats.Perm (L.filter isAudioOnly) ∧
      (∀ f, f ∈ v'.VideoFormats ↔
        f ∈ L ∧ strHasPrefix f.MimeType "video" = true ∧ f.AudioChannels = 0) ∧
      (∀ f, f ∈ v'.VideoAudioFormats ↔
        f ∈ L ∧ strHasPrefix f.MimeType "video" = true ∧ f.AudioChannels ≠ 0) ∧
      (∀ f, f ∈ v'.AudioFormats ↔ f ∈ L ∧ strHasPrefix f.MimeType "audio" = true) ∧
      (∀ f, strHasPrefix f.MimeType "video" = false → strHasPrefix f.MimeType "audio" = false →
        f ∉ v'.VideoFormats ∧ f ∉ v'.VideoAudioFormats ∧ f ∉ v'.AudioFormats) ∧
      (∀ f, ¬(f ∈ v'.VideoFormats ∧ f ∈ v'.VideoAudioFormats) ∧
        ¬(f ∈ v'.VideoFormats ∧ f ∈ v'.AudioFormats) ∧
        ¬(f ∈ v'.VideoAudioFormats ∧ f ∈ v'.AudioFormats))) := by
  subst hL
  have hv : ({ extractDuration (extractDetails v prData) prData with
      Formats := prData.StreamingData.Formats ++ prData.StreamingData.AdaptiveFormats }
      : Video).VideoFormats = [] :=
    ((extractDuration_views (extractDetails v prData) prData).1).trans h1
  have hva : ({ extractDuration (extractDetails v prData) prData with
      Formats := prData.StreamingData.Formats ++ prData.StreamingData.AdaptiveFormats }
      : Video).VideoAudioFormats = [] :=
    ((extractDuration_views (extractDetails v prData) prData).2.1).trans h2
  have ha : ({ extractDuration (extractDetails v prData) prData with
      Formats := prData.StreamingData.Formats ++ prData.StreamingData.AdaptiveFormats }
      : Video).AudioFormats = [] :=
    ((extractDuration_views (extractDetails v prData) prData).2.2).trans h3
  exact extract_core
    ({ extractDuration (extractDetails v prData) prData with
       Formats := prData.StreamingData.Formats ++ prData.StreamingData.AdaptiveFormats })
    prData.StreamingData.HlsManifestURL prData.StreamingData.DashManifestURL hv hva ha

/-- Two video-only formats in ascending-width fetch order. -/
def cexVidW100 : Format :=
  { ItagNo := 18, MimeType := "video/mp4; codecs=avc1.42001E", Width := 100 }

def cexVidW200 : Format :=
  { ItagNo := 22, MimeType := "video/mp4; codecs=avc1.64001F", Width := 200 }

def cexPrC5 : PlayerResponseData :=
  { StreamingData := { Formats := [cexVidW100, cexVidW200] } }

/-- Counterexample to claim C5 as stated: the sort step reorders the views,
so after a successful parse the video-only view is `[w200, w100]`, which is
not a sublist of the concatenation `[w100, w200]` of the two
stream-descriptor arrays (and the all-formats list is not that concatenation
either — it is the same re-sorted permutation). -/
theorem extract_formats_classification_cex :
    (extractDataFromPlayerResponse {} cexPrC5).toOption.map (fun u => u.VideoFormats) =
      some [cexVidW200, cexVidW100] ∧
    cexPrC5.StreamingData.Formats ++ cexPrC5.StreamingData.AdaptiveFormats =
      [cexVidW100, cexVidW200] ∧
    ¬ ([cexVidW200, cexVidW100] : FormatList).Sublist [cexVidW100, cexVidW200] := by
  refine ⟨rfl, rfl, by decide⟩

/-- A one-entry audio catalog used to witness claim C5. -/
def cexAudioF : Format :=
  { ItagNo := 140, MimeType := "audio/mp4; codecs=mp4a.40.2", AudioChannels := 2 }

def cexPrW : PlayerResponseData := { StreamingData := { Formats := [cexAudioF] } }

def cexExtractRes : Video := { Formats := [cexAudioF], AudioFormats := [cexAudioF] }

theorem extract_formats_classification_witness :
    extractDataFromPlayerResponse {} cexPrW = .ok cexExtractRes ∧
    cexExtractRes.AudioFormats.Perm ([cexAudioF].filter isAudioOnly) := by
  have hok : extractDataFromPlayerResponse {} cexPrW = .ok cexExtractRes := by rfl
  have h := (extract_formats_classification {} cexPrW [cexAudioF] rfl rfl rfl rfl).2
    cexExtractRes hok
  exact ⟨hok, h.2.2.2.1⟩
